import Mathlib

/-!
Verification of the Raw-Image-Converter repository: a shallow embedding of
`convert_raw_images.py` and `delete_raw_files.py`, with theorems settling the
stated claims about the conversion controller, the disk-space monitor, and the
safe-deletion controller.

Modelling conventions:
- The filesystem is a total map `String → FileStat`; `FileStat.file size removable`
  records the byte size and whether `os.remove` would succeed (permission).
- Python dicts persisted as JSON are association lists `List (String × _)` in
  insertion order; `List.lookup` is dict lookup / `in` membership.
- Wall-clock timestamp fields (`converted_at`, `detected_at`, `deleted_at`) are
  not modelled: they never influence control flow.
- External effects (the `shutil.disk_usage` query, the rawpy/imageio codec) are
  oracles passed as arguments; an `Option`/`Except` result models a raised
  exception.
-/

namespace RawConv

/-- Status of a path on disk: absent, or a file with a byte size and a flag
saying whether `os.remove` would succeed on it (permission). -/
inductive FileStat where
  | absent
  | file (size : Nat) (removable : Bool)
deriving DecidableEq, Repr

/-- A filesystem snapshot: every path has a `FileStat`. -/
abbrev FS := String → FileStat

/-- `os.path.exists`. -/
def FileStat.pathExists : FileStat → Bool
  | .absent => false
  | .file _ _ => true

/-- One entry of `conversion_log.json`: `{output_path, converted_at, file_size}`.
`output_path = none` models a JSON `null` (or an absent key): both are falsy in
the `if jpeg_path and ...` guard of `delete_raw_files.py` line 54. -/
structure ConvertedRecord where
  output_path : Option String
  file_size : Nat
deriving DecidableEq, Repr

/-- One entry of `deletion_log.json`: `{deleted_at, original_size, converted_to}`.
`converted_to` is `conversion_log[path].get('output_path', 'unknown')`
(`delete_raw_files.py` line 111); `none` models a JSON `null` value. -/
structure DeletedRecord where
  original_size : Nat
  converted_to : Option String
deriving DecidableEq, Repr

/-- Eligibility filter of the deletion plan, `delete_raw_files.py` lines 49-54:
the raw path still exists, and the record's `output_path` is truthy (a Python
non-empty string) and exists on disk. -/
def eligibleEntry (fs : FS) (entry : String × ConvertedRecord) : Bool :=
  (fs entry.1).pathExists &&
    (match entry.2.output_path with
     | some jp => decide (jp ≠ "") && (fs jp).pathExists
     | none => false)

/-- The planned deletion list before batching (`raw_files_to_delete` as built by
the loop at `delete_raw_files.py` lines 49-55), in the conversion log's own
iteration order. -/
def planDeletions (fs : FS) (conversion_log : List (String × ConvertedRecord)) :
    List String :=
  (conversion_log.filter (eligibleEntry fs)).map Prod.fst

/-- Python list slicing `l[:b]` for an `int` bound `b` (negative bounds count
from the end). -/
def pySliceTo (l : List String) (b : Int) : List String :=
  if 0 ≤ b then l.take b.toNat else l.take (l.length - b.natAbs)

/-- The batch-size truncation, `delete_raw_files.py` lines 63-66:
`if batch_size and len(raw_files_to_delete) > batch_size:` then keep the first
`batch_size` entries. `none` is Python `None`; `some 0` is falsy like `None`. -/
def applyBatch (batch_size : Option Int) (l : List String) : List String :=
  match batch_size with
  | none => l
  | some b => if b ≠ 0 ∧ (l.length : Int) > b then pySliceTo l b else l

/-- The full planned list for a run: eligibility filter then batch truncation. -/
def rawFilesToDelete (fs : FS) (conversion_log : List (String × ConvertedRecord))
    (batch_size : Option Int) : List String :=
  applyBatch batch_size (planDeletions fs conversion_log)

/-- Mutable state of the deletion loop of `delete_raw_files.py` lines 93-125,
plus the evolving filesystem. -/
structure DeleteOutcome where
  fs : FS
  deleted_count : Nat
  skipped_count : Nat
  error_count : Nat
  deletion_log : List (String × DeletedRecord)

/-- `conversion_log.get(raw_path, {}).get('output_path', 'unknown')`
(`delete_raw_files.py` lines 102 and 111). -/
def convertedTo (conversion_log : List (String × ConvertedRecord)) (p : String) :
    Option String :=
  match conversion_log.lookup p with
  | none => some "unknown"
  | some rec0 => rec0.output_path

/-- One iteration of the deletion loop (`delete_raw_files.py` lines 98-125):
`os.path.getsize` then `os.remove`; an absent file raises `FileNotFoundError`
(counted skipped), a permission failure raises `PermissionError` (counted
error), success appends a `DeletedRecord` and removes the path. -/
def deleteStep (conversion_log : List (String × ConvertedRecord))
    (st : DeleteOutcome) (p : String) : DeleteOutcome :=
  match st.fs p with
  | .absent =>
      { st with skipped_count := st.skipped_count + 1 }
  | .file sz removable =>
      if removable then
        { st with
          fs := Function.update st.fs p .absent
          deleted_count := st.deleted_count + 1
          deletion_log :=
            st.deletion_log ++ [(p, ⟨sz, convertedTo conversion_log p⟩)] }
      else
        { st with error_count := st.error_count + 1 }

/-- The deletion loop over the planned list. -/
def execDeletions (conversion_log : List (String × ConvertedRecord))
    (st : DeleteOutcome) : List String → DeleteOutcome
  | [] => st
  | p :: rest => execDeletions conversion_log (deleteStep conversion_log st p) rest

/-- `delete_raw_files(directory, ..., confirm, batch_size)` of
`delete_raw_files.py` lines 26-142. `userSaysYes` models the interactive
confirmation answer; an empty conversion log returns `(0, 0, 0)` at once
(line 43); a declined confirmation returns `(0, total_files, 0)` (line 90). -/
def delete_raw_files (fs : FS) (conversion_log : List (String × ConvertedRecord))
    (confirm userSaysYes : Bool) (batch_size : Option Int) : DeleteOutcome :=
  if conversion_log.isEmpty then
    ⟨fs, 0, 0, 0, []⟩
  else
    let planned := rawFilesToDelete fs conversion_log batch_size
    if confirm && !userSaysYes then
      ⟨fs, 0, planned.length, 0, []⟩
    else
      execDeletions conversion_log ⟨fs, 0, 0, 0, []⟩ planned

/-- The size stored in a `FileStat` (0 for an absent path; only ever read on
paths known to be files). -/
def fileSizeOf : FileStat → Nat
  | .absent => 0
  | .file sz _ => sz

/-- The path is a file that `os.remove` succeeds on. -/
def isRemovableFile (fs : FS) (p : String) : Bool :=
  match fs p with
  | .file _ true => true
  | _ => false

/-- The path is absent (deleting raises `FileNotFoundError`). -/
def isMissing (fs : FS) (p : String) : Bool :=
  match fs p with
  | .absent => true
  | _ => false

/-- The path is a file that `os.remove` fails on with `PermissionError`. -/
def isLockedFile (fs : FS) (p : String) : Bool :=
  match fs p with
  | .file _ false => true
  | _ => false

/-! ### Conversion controller (`convert_raw_images.py`) -/

/-- The status string returned by `check_disk_space`; the code can return
`'critical'`, `'warning'`, `'ok'`, or — in its exception handler — `'error'`. -/
inductive SpaceStatus where
  | critical
  | warning
  | ok
  | error
deriving DecidableEq, Repr

/-- The tuple `(has_space, free_mb, status)` returned by `check_disk_space`. -/
structure CheckResult where
  has_space : Bool
  free_mb : ℚ
  status : SpaceStatus
deriving DecidableEq, Repr

/-- `check_disk_space(directory, required_mb)`, `convert_raw_images.py` lines
39-69. `freeBytes` is the `free` field of `shutil.disk_usage`; `none` models
the query raising, which the handler turns into `(False, 0, 'error')`. -/
def check_disk_space (freeBytes : Option ℚ) (required_mb : ℚ) : CheckResult :=
  match freeBytes with
  | none => ⟨false, 0, .error⟩
  | some free =>
    let free_mb := free / (1024 * 1024)
    if free_mb < required_mb then ⟨false, free_mb, .critical⟩
    else if free_mb < required_mb * 2 then ⟨true, free_mb, .warning⟩
    else ⟨true, free_mb, .ok⟩

/-- `str.lower()` (character-wise, as Python does for ASCII names). -/
def pyLower (s : String) : String := String.mk (s.toList.map Char.toLower)

/-- `str.endswith(e)`. -/
def strEndsWith (s e : String) : Bool := List.isSuffixOf e.toList s.toList

/-- `str.startswith(e)`. -/
def strStartsWith (s e : String) : Bool := List.isPrefixOf e.toList s.toList

/-- Index of the last occurrence of `c` in `l`. -/
def lastIdxOf (c : Char) (l : List Char) : Option Nat :=
  match l.reverse.findIdx? (· = c) with
  | none => none
  | some i => some (l.length - 1 - i)

/-- `os.path.splitext(filename)[0]` for a bare filename (no separators):
split at the last dot unless every character before it is a dot. -/
def splitextRoot (s : String) : String :=
  let cs := s.toList
  match lastIdxOf '.' cs with
  | none => s
  | some d => if (cs.take d).any (fun c => c ≠ '.') then String.mk (cs.take d) else s

/-- `os.path.join(a, b)` for POSIX paths (two arguments). -/
def osPathJoin (a b : String) : String :=
  if strStartsWith b "/" then b
  else if a = "" ∨ strEndsWith a "/" then a ++ b
  else a ++ "/" ++ b

/-- The raw-file extension tuple of `convert_raw_images.py` lines 166/190. -/
def rawExtensions : List String :=
  [".cr2", ".rw2", ".arw", ".nef", ".orf", ".dng", ".raf", ".pef", ".srw"]

/-- `filename.lower().endswith((".cr2", ...))`. -/
def isRawFile (filename : String) : Bool :=
  rawExtensions.any (fun e => strEndsWith (pyLower filename) e)

/-- One entry of `corrupt_files.json`: `{error, error_type, detected_at,
file_size}`. -/
structure CorruptRecord where
  error : String
  error_type : String
  file_size : Nat
deriving DecidableEq, Repr

/-- Mutable state of `convert_raw_to_jpeg`, plus the observables the claims
are about: `checkedAt` records the value of `converted_count` at each call of
the disk-space monitor inside the loop, `convSaves` counts the periodic
`save_conversion_log` calls (line 298), and `crashed` records an exception
escaping the per-file handlers (which would kill the whole run). -/
structure ConvState where
  fs : FS
  conversion_log : List (String × ConvertedRecord)
  corrupt_files_log : List (String × CorruptRecord)
  corrupt_files : List String
  converted_count : Nat
  skipped_count : Nat
  error_count : Nat
  session_processed : Nat
  space_check_frequency : Nat
  converted_file_sizes : List ℚ
  checkCalls : Nat
  checkedAt : List Nat
  convSaves : Nat
  crashed : Bool

/-- The frequency chosen after a space check, `convert_raw_images.py` lines
310-315: `critical → 1`, `warning → 3`, anything else (including the
`'error'` status) → 5. -/
def freqOf : SpaceStatus → Nat
  | .critical => 1
  | .warning => 3
  | _ => 5

/-- `os.path.getsize(output_path) / (1024 * 1024)` (line 301). -/
def jpegSizeMB (bytes : Nat) : ℚ := (bytes : ℚ) / (1024 * 1024)

/-- The successful-conversion path, `convert_raw_images.py` lines 289-353:
append the `ConvertedRecord`; when `converted_count % 5 == 0` save the log and
record the output size; when additionally `converted_count %
space_check_frequency == 0` call the monitor (`space` is the oracle for the
successive monitor calls) and retune the frequency; then, when at least 5
sizes have been recorded, line 320 reads the undefined name
`progress_counter`: the resulting `NameError` is caught by the generic
handler of lines 409-439, which records the file as corrupt and counts an
error, and `converted_count` is never incremented for this file. -/
def successStep (space : Nat → CheckResult) (st : ConvState)
    (input_path output_path : String) (srcSize jpegBytes : Nat) : ConvState :=
  let st1 := { st with
    fs := Function.update st.fs output_path (.file jpegBytes true)
    conversion_log := st.conversion_log ++
      [(input_path, (⟨some output_path, srcSize⟩ : ConvertedRecord))] }
  if st1.converted_count % 5 = 0 then
    let st2 := { st1 with
      convSaves := st1.convSaves + 1
      converted_file_sizes := st1.converted_file_sizes ++ [jpegSizeMB jpegBytes] }
    if st2.converted_count % st2.space_check_frequency = 0 then
      let res := space st2.checkCalls
      let st3 := { st2 with
        checkCalls := st2.checkCalls + 1
        checkedAt := st2.checkedAt ++ [st2.converted_count]
        space_check_frequency := freqOf res.status }
      if 5 ≤ st3.converted_file_sizes.length then
        { st3 with
          corrupt_files_log := st3.corrupt_files_log ++
            [(input_path, (⟨"name progress_counter is not defined", "NameError",
              srcSize⟩ : CorruptRecord))]
          corrupt_files := st3.corrupt_files ++ [input_path]
          error_count := st3.error_count + 1
          session_processed := st3.session_processed + 1 }
      else
        { st3 with
          converted_count := st3.converted_count + 1
          session_processed := st3.session_processed + 1 }
    else
      { st2 with
        converted_count := st2.converted_count + 1
        session_processed := st2.session_processed + 1 }
  else
    { st1 with
      converted_count := st1.converted_count + 1
      session_processed := st1.session_processed + 1 }

/-- A decode/encode failure (either `except` branch, lines 377-439): append a
`CorruptRecord`, count an error, no output written. -/
def failStep (st : ConvState) (input_path msg etype : String) (srcSize : Nat) :
    ConvState :=
  { st with
    corrupt_files_log := st.corrupt_files_log ++
      [(input_path, (⟨msg, etype, srcSize⟩ : CorruptRecord))]
    corrupt_files := st.corrupt_files ++ [input_path]
    error_count := st.error_count + 1
    session_processed := st.session_processed + 1 }

/-- The decode+encode collaborators: `rawpy.imread`/`postprocess` and
`imageio.imwrite` as one oracle. `.ok bytes` is a successful conversion whose
written JPEG has `bytes` bytes; `.error (msg, type)` is a raised exception. -/
abbrev DecodeOracle := String → Except (String × String) Nat

/-- Per-file processing, `convert_raw_images.py` lines 188-439: skip files not
matching the raw extensions; skip (without decode, encode, or log write) a
file already in the conversion log or whose output path exists; otherwise
`os.stat` + decode + encode. If the input path is absent, `os.stat` raises
`OSError`, and the handler itself (line 387) raises `FileNotFoundError` out of
the function: the run crashes. -/
def fileStep (decode : DecodeOracle) (space : Nat → CheckResult)
    (st : ConvState) (df : String × String) : ConvState :=
  if st.crashed then st
  else if ¬ isRawFile df.2 then st
  else
    let input_path := osPathJoin df.1 df.2
    let output_path := osPathJoin df.1 (splitextRoot df.2 ++ ".jpg")
    if (st.conversion_log.lookup input_path).isSome then
      { st with skipped_count := st.skipped_count + 1 }
    else if (st.fs output_path).pathExists then
      { st with skipped_count := st.skipped_count + 1 }
    else
      match st.fs input_path with
      | .absent => { st with crashed := true }
      | .file srcSize _ =>
        match decode input_path with
        | .error e => failStep st input_path e.1 e.2 srcSize
        | .ok jpegBytes => successStep space st input_path output_path srcSize jpegBytes

/-- Initial loop state (lines 132-159): counters zero, check frequency 5, the
two logs as loaded from disk. -/
def initConvState (fs0 : FS) (initLog : List (String × ConvertedRecord))
    (initCorrupt : List (String × CorruptRecord)) : ConvState :=
  ⟨fs0, initLog, initCorrupt, [], 0, 0, 0, 0, 5, [], 0, [], 0, false⟩

/-- Result of a conversion run: the final state, whether the main loop ran
(lines 140-142 return early on low space without `--force`), and whether the
run-end saves happened: `save_conversion_log` unconditionally (line 450),
`save_corrupt_files_log` only `if corrupt_files:` (lines 453-454). A crashed
run reaches neither. -/
structure ConvResult where
  final : ConvState
  ranMainLoop : Bool
  finalConvSave : Bool
  finalCorruptSave : Bool

/-- `convert_raw_to_jpeg(root_directory, args)`, `convert_raw_images.py`
lines 121-469, driven by the `os.walk` file sequence `files` (pairs of
directory and filename in traversal order). `initialCheck` is the result of
the space check at line 139 and `force` is `args.force`. -/
def convert_raw_to_jpeg (fs0 : FS) (initLog : List (String × ConvertedRecord))
    (initCorrupt : List (String × CorruptRecord)) (files : List (String × String))
    (decode : DecodeOracle) (space : Nat → CheckResult)
    (initialCheck : CheckResult) (force : Bool) : ConvResult :=
  if initialCheck.has_space = false ∧ force = false then
    ⟨initConvState fs0 initLog initCorrupt, false, false, false⟩
  else
    let st := (files.foldl (fileStep decode space) (initConvState fs0 initLog initCorrupt))
    ⟨st, true, !st.crashed, !st.crashed && !st.corrupt_files.isEmpty⟩

/-- The three responses accepted by the pause gate prompt
(`convert_raw_images.py` lines 335-349): `exit`, `force`, anything else. -/
inductive GateResponse where
  | exitRun
  | forceContinue
  | resume
deriving DecidableEq, Repr

/-- Observable effects of the pause gate's response handling. -/
structure GateOutcome where
  savedConversionLog : Bool
  savedCorruptLog : Bool
  terminated : Bool
  forceFlagSet : Bool
  recheckedSpace : Bool
deriving DecidableEq, Repr

/-- The pause gate branch, `convert_raw_images.py` lines 335-349: on `exit`
save both logs and return; on `force` set `args.force`; otherwise re-check
disk space and resume. (In the code as written, this branch is unreachable:
the `NameError` of line 320 fires first.) -/
def pauseGateRespond : GateResponse → GateOutcome
  | .exitRun => ⟨true, true, true, false, false⟩
  | .forceContinue => ⟨false, false, false, true, false⟩
  | .resume => ⟨false, false, false, false, true⟩

/-! ### Concrete fixtures for witnesses and counterexamples -/

/-- Six raw files on disk, no outputs yet. -/
def fs7 : FS := fun s =>
  if s = "/a/f1.cr2" ∨ s = "/a/f2.cr2" ∨ s = "/a/f3.cr2" ∨ s = "/a/f4.cr2"
      ∨ s = "/a/f5.cr2" ∨ s = "/a/f6.cr2" then .file 1000 true else .absent

def files7 : List (String × String) :=
  [("/a", "f1.cr2"), ("/a", "f2.cr2"), ("/a", "f3.cr2"),
   ("/a", "f4.cr2"), ("/a", "f5.cr2"), ("/a", "f6.cr2")]

/-- A codec oracle that always succeeds, producing a 1 MiB JPEG. -/
def decodeOk : DecodeOracle := fun _ => .ok 1048576

/-- A monitor oracle reporting ample space. -/
def spaceOkOracle : Nat → CheckResult := fun _ => ⟨true, 10000, .ok⟩

/-- A monitor oracle reporting critically low space on every call. -/
def spaceCritOracle : Nat → CheckResult := fun _ => ⟨false, 1, .critical⟩

/-- An initial space check that passes the admission gate. -/
def initCheckOk : CheckResult := ⟨true, 10000, .ok⟩

/-- Loop state after 20 successful conversions with four recorded output-size
samples: the next periodic block records the fifth sample and reaches the
prediction branch of line 318. -/
def stC5 : ConvState where
  fs := fun _ => .absent
  conversion_log := []
  corrupt_files_log := []
  corrupt_files := []
  converted_count := 20
  skipped_count := 0
  error_count := 0
  session_processed := 20
  space_check_frequency := 5
  converted_file_sizes := [2, 2, 2, 2]
  checkCalls := 4
  checkedAt := [0, 5, 10, 15]
  convSaves := 4
  crashed := false

/-- A loop state whose conversion log already holds `/a/p.cr2`. -/
def stC2 : ConvState where
  fs := fun s => if s = "/a/p.cr2" then .file 1000 true else .absent
  conversion_log := [("/a/p.cr2", ⟨some "/a/p.jpg", 1000⟩)]
  corrupt_files_log := []
  corrupt_files := []
  converted_count := 0
  skipped_count := 0
  error_count := 0
  session_processed := 0
  space_check_frequency := 5
  converted_file_sizes := []
  checkCalls := 0
  checkedAt := []
  convSaves := 0
  crashed := false

/-- Concrete one-file scenario used as a witness: a raw file and its converted
output both on disk, with a matching conversion-log entry. -/
def fsW : FS := fun s =>
  if s = "/a/x.cr2" then .file 100 true
  else if s = "/a/x.jpg" then .file 5 true
  else .absent

def logW : List (String × ConvertedRecord) := [("/a/x.cr2", ⟨some "/a/x.jpg", 100⟩)]

/-- Concrete three-path batch used as a witness: one path already gone, one
locked by permissions, one deletable. -/
def fsX : FS := fun s =>
  if s = "/d/locked.cr2" then .file 7 false
  else if s = "/d/ok.cr2" then .file 9 true
  else .absent

/-- Concrete five-candidate scenario (spec Scenario C): five raw files, each
with its output on disk and a conversion-log entry. -/
def fs5 : FS := fun s =>
  if s = "/a/r1.cr2" ∨ s = "/a/r2.cr2" ∨ s = "/a/r3.cr2" ∨ s = "/a/r4.cr2"
      ∨ s = "/a/r5.cr2" then .file 100 true
  else if s = "/a/r1.jpg" ∨ s = "/a/r2.jpg" ∨ s = "/a/r3.jpg" ∨ s = "/a/r4.jpg"
      ∨ s = "/a/r5.jpg" then .file 5 true
  else .absent

def log5 : List (String × ConvertedRecord) :=
  [("/a/r1.cr2", ⟨some "/a/r1.jpg", 100⟩), ("/a/r2.cr2", ⟨some "/a/r2.jpg", 100⟩),
   ("/a/r3.cr2", ⟨some "/a/r3.jpg", 100⟩), ("/a/r4.cr2", ⟨some "/a/r4.jpg", 100⟩),
   ("/a/r5.cr2", ⟨some "/a/r5.jpg", 100⟩)]

lemma deleteStep_fs_ne (log : List (String × ConvertedRecord)) (st : DeleteOutcome)
    (p q : String) (h : q ≠ p) : (deleteStep log st p).fs q = st.fs q := by
  unfold deleteStep
  cases hfp : st.fs p with
  | absent => rfl
  | file sz rem =>
    cases rem with
    | false => rfl
    | true => simp [Function.update_noteq h]

lemma execDeletions_fs_not_mem (log : List (String × ConvertedRecord)) :
    ∀ (planned : List String) (st : DeleteOutcome) (q : String), q ∉ planned →
      (execDeletions log st planned).fs q = st.fs q := by
  intro planned
  induction planned with
  | nil => intro st q _; rfl
  | cons p rest ih =>
    intro st q h
    have h1 : q ∉ rest := fun hr => h (List.mem_cons_of_mem _ hr)
    have h2 : q ≠ p := fun he => h (he ▸ List.mem_cons_self _ _)
    show (execDeletions log (deleteStep log st p) rest).fs q = st.fs q
    rw [ih (deleteStep log st p) q h1, deleteStep_fs_ne log st p q h2]

lemma execDeletions_cons (log : List (String × ConvertedRecord))
    (st : DeleteOutcome) (p : String) (rest : List String) :
    execDeletions log st (p :: rest) = execDeletions log (deleteStep log st p) rest :=
  rfl

lemma deleteStep_absent (log : List (String × ConvertedRecord)) (st : DeleteOutcome)
    (p : String) (hfp : st.fs p = .absent) :
    deleteStep log st p = { st with skipped_count := st.skipped_count + 1 } := by
  unfold deleteStep; rw [hfp]

lemma deleteStep_locked (log : List (String × ConvertedRecord)) (st : DeleteOutcome)
    (p : String) (sz : Nat) (hfp : st.fs p = .file sz false) :
    deleteStep log st p = { st with error_count := st.error_count + 1 } := by
  unfold deleteStep; rw [hfp]; rfl

lemma deleteStep_removes (log : List (String × ConvertedRecord)) (st : DeleteOutcome)
    (p : String) (sz : Nat) (hfp : st.fs p = .file sz true) :
    deleteStep log st p
      = { st with
          fs := Function.update st.fs p .absent
          deleted_count := st.deleted_count + 1
          deletion_log := st.deletion_log ++ [(p, ⟨sz, convertedTo log p⟩)] } := by
  unfold deleteStep; rw [hfp]; rfl

lemma execDeletions_log_mem (log : List (String × ConvertedRecord)) :
    ∀ (planned : List String) (st : DeleteOutcome) (q : String),
      q ∈ (execDeletions log st planned).deletion_log.map Prod.fst →
      q ∈ st.deletion_log.map Prod.fst ∨ q ∈ planned := by
  intro planned
  induction planned with
  | nil => intro st q h; exact Or.inl h
  | cons p rest ih =>
    intro st q h
    rw [execDeletions_cons] at h
    rcases ih (deleteStep log st p) q h with h1 | h1
    · cases hfp : st.fs p with
      | absent =>
        rw [deleteStep_absent log st p hfp] at h1
        exact Or.inl h1
      | file sz rem =>
        cases rem with
        | false =>
          rw [deleteStep_locked log st p sz hfp] at h1
          exact Or.inl h1
        | true =>
          rw [deleteStep_removes log st p sz hfp] at h1
          simp only [List.map_append, List.mem_append, List.map_cons, List.map_nil,
            List.mem_singleton] at h1
          rcases h1 with h2 | h2
          · exact Or.inl h2
          · exact Or.inr (h2 ▸ List.mem_cons_self _ _)
    · exact Or.inr (List.mem_cons_of_mem _ h1)

/-- Full characterisation of one deletion batch over a duplicate-free planned
list: counts and the audit log are the filters of the plan by the plan-time
filesystem. -/
lemma execDeletions_spec (log : List (String × ConvertedRecord)) :
    ∀ (planned : List String) (st : DeleteOutcome), planned.Nodup →
      (execDeletions log st planned).deleted_count
          = st.deleted_count + (planned.filter (isRemovableFile st.fs)).length ∧
      (execDeletions log st planned).skipped_count
          = st.skipped_count + (planned.filter (isMissing st.fs)).length ∧
      (execDeletions log st planned).error_count
          = st.error_count + (planned.filter (isLockedFile st.fs)).length ∧
      (execDeletions log st planned).deletion_log
          = st.deletion_log ++ (planned.filter (isRemovableFile st.fs)).map
              (fun p => (p, ⟨fileSizeOf (st.fs p), convertedTo log p⟩)) := by
  intro planned
  induction planned with
  | nil => intro st _; simp [execDeletions]
  | cons p rest ih =>
    intro st hnd
    rw [List.nodup_cons] at hnd
    obtain ⟨hp, hrest⟩ := hnd
    have hfs : ∀ q ∈ rest, (deleteStep log st p).fs q = st.fs q := fun q hq =>
      deleteStep_fs_ne log st p q (fun he => hp (he ▸ hq))
    obtain ⟨ih1, ih2, ih3, ih4⟩ := ih (deleteStep log st p) hrest
    have hfR : rest.filter (isRemovableFile (deleteStep log st p).fs)
        = rest.filter (isRemovableFile st.fs) :=
      List.filter_congr (fun q hq => by unfold isRemovableFile; rw [hfs q hq])
    have hfM : rest.filter (isMissing (deleteStep log st p).fs)
        = rest.filter (isMissing st.fs) :=
      List.filter_congr (fun q hq => by unfold isMissing; rw [hfs q hq])
    have hfL : rest.filter (isLockedFile (deleteStep log st p).fs)
        = rest.filter (isLockedFile st.fs) :=
      List.filter_congr (fun q hq => by unfold isLockedFile; rw [hfs q hq])
    have hmap : (rest.filter (isRemovableFile st.fs)).map
          (fun q => ((q, ⟨fileSizeOf ((deleteStep log st p).fs q),
              convertedTo log q⟩) : String × DeletedRecord))
        = (rest.filter (isRemovableFile st.fs)).map
          (fun q => (q, ⟨fileSizeOf (st.fs q), convertedTo log q⟩)) := by
      refine List.map_congr_left (fun q hq => ?_)
      rw [hfs q (List.mem_of_mem_filter hq)]
    rw [execDeletions_cons]
    cases hfp : st.fs p with
    | absent =>
      rw [deleteStep_absent log st p hfp] at ih1 ih2 ih3 ih4 hfR hfM hfL hmap ⊢
      refine ⟨?_, ?_, ?_, ?_⟩
      · rw [ih1, hfR]
        simp [List.filter_cons, isRemovableFile, hfp]
      · rw [ih2, hfM]
        simp [List.filter_cons, isMissing, hfp, Nat.add_assoc, Nat.add_comm,
          Nat.add_left_comm]
      · rw [ih3, hfL]
        simp [List.filter_cons, isLockedFile, hfp]
      · rw [ih4, hfR, hmap]
        simp [List.filter_cons, isRemovableFile, hfp]
    | file sz rem =>
      cases rem with
      | false =>
        rw [deleteStep_locked log st p sz hfp] at ih1 ih2 ih3 ih4 hfR hfM hfL hmap ⊢
        refine ⟨?_, ?_, ?_, ?_⟩
        · rw [ih1, hfR]
          simp [List.filter_cons, isRemovableFile, hfp]
        · rw [ih2, hfM]
          simp [List.filter_cons, isMissing, hfp]
        · rw [ih3, hfL]
          simp [List.filter_cons, isLockedFile, hfp, Nat.add_assoc, Nat.add_comm,
            Nat.add_left_comm]
        · rw [ih4, hfR, hmap]
          simp [List.filter_cons, isRemovableFile, hfp]
      | true =>
        rw [deleteStep_removes log st p sz hfp] at ih1 ih2 ih3 ih4 hfR hfM hfL hmap ⊢
        refine ⟨?_, ?_, ?_, ?_⟩
        · rw [ih1, hfR]
          simp [List.filter_cons, isRemovableFile, hfp, Nat.add_assoc, Nat.add_comm,
            Nat.add_left_comm]
        · rw [ih2, hfM]
          simp [List.filter_cons, isMissing, hfp]
        · rw [ih3, hfL]
          simp [List.filter_cons, isLockedFile, hfp]
        · rw [ih4, hfR, hmap]
          simp [List.filter_cons, isRemovableFile, hfp, fileSizeOf]

lemma mem_pySliceTo {p : String} {l : List String} (b : Int)
    (h : p ∈ pySliceTo l b) : p ∈ l := by
  unfold pySliceTo at h
  split at h <;> exact (List.take_sublist _ _).subset h

lemma mem_applyBatch {p : String} {l : List String} (batch : Option Int)
    (h : p ∈ applyBatch batch l) : p ∈ l := by
  cases batch with
  | none => exact h
  | some b =>
    replace h : p ∈ (if b ≠ 0 ∧ (l.length : Int) > b then pySliceTo l b else l) := h
    by_cases hc : b ≠ 0 ∧ (l.length : Int) > b
    · rw [if_pos hc] at h
      exact mem_pySliceTo b h
    · rw [if_neg hc] at h
      exact h

lemma applyBatch_some_pos {l : List String} {b : Nat} (hb : 0 < b)
    (hlen : b < l.length) : applyBatch (some (b : Int)) l = l.take b := by
  have hcond : (b : Int) ≠ 0 ∧ (l.length : Int) > (b : Int) :=
    ⟨by exact_mod_cast hb.ne', by exact_mod_cast hlen⟩
  show (if (b : Int) ≠ 0 ∧ (l.length : Int) > (b : Int)
      then pySliceTo l (b : Int) else l) = l.take b
  rw [if_pos hcond]
  show (if (0 : Int) ≤ (b : Int) then l.take (Int.toNat (b : Int))
      else l.take (l.length - Int.natAbs (b : Int))) = l.take b
  rw [if_pos (Int.natCast_nonneg b)]
  simp

/-- C1: every path removed by a deletion run (equivalently, every path that
gains a `DeletedRecord`) satisfied, at plan time, all three eligibility
conditions: it existed on disk, it had a `ConvertedRecord` in the loaded
conversion log, and that record's `output_path` was a (non-empty) path that
also existed on disk. -/
theorem C1_deletion_plan_safety (fs : FS) (log : List (String × ConvertedRecord))
    (confirm yes : Bool) (batch : Option Int) (p : String)
    (hp : p ∈ (delete_raw_files fs log confirm yes batch).deletion_log.map Prod.fst ∨
          (delete_raw_files fs log confirm yes batch).fs p ≠ fs p) :
    (fs p).pathExists = true ∧
      ∃ rec0 : ConvertedRecord, (p, rec0) ∈ log ∧
        ∃ op, rec0.output_path = some op ∧ op ≠ "" ∧ (fs op).pathExists = true := by
  have hplan : p ∈ rawFilesToDelete fs log batch := by
    simp only [delete_raw_files] at hp
    split at hp
    · rcases hp with h | h
      · simp at h
      · simp at h
    · split at hp
      · rcases hp with h | h
        · simp at h
        · simp at h
      · rcases hp with h | h
        · have h2 := execDeletions_log_mem log (rawFilesToDelete fs log batch)
            ⟨fs, 0, 0, 0, []⟩ p h
          simpa using h2
        · by_contra hnp
          exact h (execDeletions_fs_not_mem log (rawFilesToDelete fs log batch)
            ⟨fs, 0, 0, 0, []⟩ p hnp)
  have hpd : p ∈ planDeletions fs log := mem_applyBatch batch hplan
  unfold planDeletions at hpd
  rcases List.mem_map.1 hpd with ⟨e, he, hfst⟩
  rcases List.mem_filter.1 he with ⟨hel, helig⟩
  unfold eligibleEntry at helig
  rw [Bool.and_eq_true] at helig
  obtain ⟨hex, hout⟩ := helig
  subst hfst
  refine ⟨hex, e.2, by simpa using hel, ?_⟩
  cases hop : e.2.output_path with
  | none => rw [hop] at hout; simp at hout
  | some op =>
    rw [hop] at hout
    rw [Bool.and_eq_true, decide_eq_true_iff] at hout
    exact ⟨op, rfl, hout.1, hout.2⟩

/-- Witness for C1 at a concrete deletion run that removes `/a/x.cr2`. -/
theorem C1_deletion_plan_safety_witness :
    (fsW "/a/x.cr2").pathExists = true ∧
      ∃ rec0 : ConvertedRecord, ("/a/x.cr2", rec0) ∈ logW ∧
        ∃ op, rec0.output_path = some op ∧ op ≠ "" ∧ (fsW op).pathExists = true :=
  C1_deletion_plan_safety fsW logW false true none "/a/x.cr2" (Or.inl (by decide))

/-- C9: in one deletion batch over duplicate-free planned paths, a path found
missing at delete time is counted skipped, a permission failure is counted as
an error, every planned path is processed (the counts partition the whole
plan, so neither outcome stops the batch), and the audit log records exactly
the successfully deleted paths. -/
theorem C9_deletion_execution_outcomes (log : List (String × ConvertedRecord))
    (fs : FS) (planned : List String) (hnd : planned.Nodup) :
    (execDeletions log ⟨fs, 0, 0, 0, []⟩ planned).skipped_count
        = (planned.filter (isMissing fs)).length ∧
    (execDeletions log ⟨fs, 0, 0, 0, []⟩ planned).error_count
        = (planned.filter (isLockedFile fs)).length ∧
    (execDeletions log ⟨fs, 0, 0, 0, []⟩ planned).deleted_count
        = (planned.filter (isRemovableFile fs)).length ∧
    (execDeletions log ⟨fs, 0, 0, 0, []⟩ planned).deletion_log.map Prod.fst
        = planned.filter (isRemovableFile fs) := by
  obtain ⟨h1, h2, h3, h4⟩ := execDeletions_spec log planned ⟨fs, 0, 0, 0, []⟩ hnd
  refine ⟨by simpa using h2, by simpa using h3, by simpa using h1, ?_⟩
  rw [h4]
  simp only [List.nil_append, List.map_map]
  exact (List.map_congr_left fun q _ => rfl).trans (List.map_id _)

/-- Witness for C9: a batch with one missing, one permission-locked, and one
deletable path yields counts (1, 1, 1) and an audit log naming only the
deleted path. -/
theorem C9_deletion_execution_outcomes_witness :
    (execDeletions [] ⟨fsX, 0, 0, 0, []⟩
        ["/d/gone.cr2", "/d/locked.cr2", "/d/ok.cr2"]).skipped_count = 1 ∧
    (execDeletions [] ⟨fsX, 0, 0, 0, []⟩
        ["/d/gone.cr2", "/d/locked.cr2", "/d/ok.cr2"]).error_count = 1 ∧
    (execDeletions [] ⟨fsX, 0, 0, 0, []⟩
        ["/d/gone.cr2", "/d/locked.cr2", "/d/ok.cr2"]).deleted_count = 1 ∧
    (execDeletions [] ⟨fsX, 0, 0, 0, []⟩
        ["/d/gone.cr2", "/d/locked.cr2", "/d/ok.cr2"]).deletion_log.map Prod.fst
      = ["/d/ok.cr2"] := by
  obtain ⟨h1, h2, h3, h4⟩ := C9_deletion_execution_outcomes []
    fsX ["/d/gone.cr2", "/d/locked.cr2", "/d/ok.cr2"] (by decide)
  exact ⟨by rw [h1]; decide, by rw [h2]; decide, by rw [h3]; decide,
    by rw [h4]; decide⟩

/-- C6: with a batch limit `b > 0` smaller than the eligible set, exactly the
first `b` eligible paths (in the log's original order) are planned; when the
run proceeds and those paths are deletable, exactly `b` files are deleted,
exactly `b` DeletedRecords are written, and every eligible path beyond the
first `b` is left untouched on disk. -/
theorem C6_batch_limit (fs : FS) (log : List (String × ConvertedRecord))
    (confirm yes : Bool) (b : Nat)
    (hb : 0 < b) (hlen : b < (planDeletions fs log).length)
    (hnd : (planDeletions fs log).Nodup)
    (hrem : ∀ p ∈ (planDeletions fs log).take b, isRemovableFile fs p = true)
    (hgo : (confirm && !yes) = false) :
    rawFilesToDelete fs log (some (b : Int)) = (planDeletions fs log).take b ∧
    (delete_raw_files fs log confirm yes (some (b : Int))).deleted_count = b ∧
    (delete_raw_files fs log confirm yes (some (b : Int))).deletion_log.map Prod.fst
        = (planDeletions fs log).take b ∧
    ∀ p ∈ (planDeletions fs log).drop b,
      (delete_raw_files fs log confirm yes (some (b : Int))).fs p = fs p := by
  have htrunc : rawFilesToDelete fs log (some (b : Int))
      = (planDeletions fs log).take b := by
    unfold rawFilesToDelete
    exact applyBatch_some_pos hb hlen
  have hlogne : log.isEmpty = false := by
    cases hL : log.isEmpty with
    | false => rfl
    | true =>
      rw [List.isEmpty_iff] at hL
      rw [hL] at hlen
      simp [planDeletions] at hlen
  have hrun : delete_raw_files fs log confirm yes (some (b : Int))
      = execDeletions log ⟨fs, 0, 0, 0, []⟩ ((planDeletions fs log).take b) := by
    simp [delete_raw_files, hlogne, hgo, htrunc]
  have hndt : ((planDeletions fs log).take b).Nodup :=
    hnd.sublist (List.take_sublist _ _)
  have hfilt : ((planDeletions fs log).take b).filter (isRemovableFile fs)
      = (planDeletions fs log).take b := List.filter_eq_self.mpr hrem
  obtain ⟨h1, _, _, h4⟩ := execDeletions_spec log ((planDeletions fs log).take b)
    ⟨fs, 0, 0, 0, []⟩ hndt
  have hlentake : ((planDeletions fs log).take b).length = b := by
    rw [List.length_take]
    omega
  refine ⟨htrunc, ?_, ?_, ?_⟩
  · rw [hrun, h1, hfilt]
    simpa using hlentake
  · rw [hrun, h4, hfilt]
    simp only [List.nil_append, List.map_map]
    exact (List.map_congr_left fun q _ => rfl).trans (List.map_id _)
  · intro p hpd
    have hnm : p ∉ (planDeletions fs log).take b := by
      intro hpt
      have hsplit := List.take_append_drop b (planDeletions fs log)
      rw [← hsplit] at hnd
      rcases List.nodup_append.1 hnd with ⟨_, _, hdisj⟩
      exact hdisj hpt hpd
    rw [hrun]
    exact execDeletions_fs_not_mem log _ ⟨fs, 0, 0, 0, []⟩ p hnm

/-- Witness for C6: spec Scenario C — `--batch 1` against five eligible
candidates deletes exactly one file, writes exactly one DeletedRecord, and
leaves `/a/r2.cr2` (one of the other four) untouched on disk. -/
theorem C6_batch_limit_witness :
    (delete_raw_files fs5 log5 true true (some ((1 : Nat) : Int))).deleted_count = 1 ∧
    (delete_raw_files fs5 log5 true true (some ((1 : Nat) : Int))).deletion_log.map
        Prod.fst = ["/a/r1.cr2"] ∧
    (delete_raw_files fs5 log5 true true (some ((1 : Nat) : Int))).fs "/a/r2.cr2"
        = fs5 "/a/r2.cr2" := by
  obtain ⟨_, h2, h3, h4⟩ := C6_batch_limit fs5 log5 true true 1 (by decide)
    (by decide) (by decide) (by decide) (by decide)
  exact ⟨h2, by rw [h3]; decide, h4 "/a/r2.cr2" (by decide)⟩

/-- C10: a batch size of 0 is falsy in `if batch_size and ...`, so it is
treated exactly like an absent limit: every eligible path is planned, and the
whole run behaves identically to a run with no batch limit. -/
theorem C10_batch_zero_falsy (fs : FS) (log : List (String × ConvertedRecord))
    (confirm yes : Bool) :
    rawFilesToDelete fs log (some 0) = planDeletions fs log ∧
    delete_raw_files fs log confirm yes (some 0)
      = delete_raw_files fs log confirm yes none := by
  constructor
  · simp [rawFilesToDelete, applyBatch]
  · simp [delete_raw_files, rawFilesToDelete, applyBatch]

/-- C2: a raw file already present in the loaded conversion log, or whose
computed output path (same directory, extension replaced by `.jpg`) already
exists on disk, is counted as skipped; the step leaves every other part of the
state untouched — in particular no decode/encode is attempted (the result does
not depend on the codec oracle) and no log entry is written. -/
theorem C2_dual_skip (decode : DecodeOracle) (space : Nat → CheckResult)
    (st : ConvState) (dir filename : String)
    (hcrash : st.crashed = false)
    (hraw : isRawFile filename = true)
    (hskip : (st.conversion_log.lookup (osPathJoin dir filename)).isSome = true ∨
        (st.fs (osPathJoin dir (splitextRoot filename ++ ".jpg"))).pathExists = true) :
    fileStep decode space st (dir, filename)
      = { st with skipped_count := st.skipped_count + 1 } := by
  by_cases h2 : (st.conversion_log.lookup (osPathJoin dir filename)).isSome = true
  · simp [fileStep, hcrash, hraw, h2]
  · rcases hskip with h | h
    · exact absurd h h2
    · simp [fileStep, hcrash, hraw, h2, h]

/-- Witness for C2 at a concrete state whose log already holds the file. -/
theorem C2_dual_skip_witness :
    fileStep decodeOk spaceOkOracle stC2 ("/a", "p.cr2")
      = { stC2 with skipped_count := stC2.skipped_count + 1 } :=
  C2_dual_skip decodeOk spaceOkOracle stC2 "/a" "p.cr2" rfl (by decide)
    (Or.inl (by decide))

/-- C3: for free space `F ≥ 0` MB and threshold `R > 0` MB, the disk-space
check classifies `F < R` as critical (no space), `R ≤ F < 2R` as warning
(has space), and `F ≥ 2R` as ok (has space). -/
theorem C3_space_classification (F R : ℚ) (hF : 0 ≤ F) (hR : 0 < R) :
    (F < R → check_disk_space (some (F * (1024 * 1024))) R
        = ⟨false, F, .critical⟩) ∧
    (R ≤ F → F < 2 * R → check_disk_space (some (F * (1024 * 1024))) R
        = ⟨true, F, .warning⟩) ∧
    (2 * R ≤ F → check_disk_space (some (F * (1024 * 1024))) R
        = ⟨true, F, .ok⟩) := by
  have hdiv : F * (1024 * 1024) / (1024 * 1024) = F :=
    mul_div_cancel_right₀ F (by norm_num)
  refine ⟨fun h => ?_, fun h1 h2 => ?_, fun h => ?_⟩
  · simp only [check_disk_space, hdiv]
    rw [if_pos h]
  · simp only [check_disk_space, hdiv]
    rw [if_neg (not_lt.2 h1), if_pos (by linarith)]
  · simp only [check_disk_space, hdiv]
    rw [if_neg (by push_neg; linarith), if_neg (by push_neg; linarith)]

/-- Witness for C3 at threshold 500 MB: 100 MB is critical, 600 MB is
warning, 1000 MB is ok. -/
theorem C3_space_classification_witness :
    check_disk_space (some ((100 : ℚ) * (1024 * 1024))) 500
        = ⟨false, 100, .critical⟩ ∧
    check_disk_space (some ((600 : ℚ) * (1024 * 1024))) 500
        = ⟨true, 600, .warning⟩ ∧
    check_disk_space (some ((1000 : ℚ) * (1024 * 1024))) 500
        = ⟨true, 1000, .ok⟩ :=
  ⟨(C3_space_classification 100 500 (by norm_num) (by norm_num)).1 (by norm_num),
   (C3_space_classification 600 500 (by norm_num) (by norm_num)).2.1 (by norm_num)
     (by norm_num),
   (C3_space_classification 1000 500 (by norm_num) (by norm_num)).2.2 (by norm_num)⟩

/-- C4 (claim as stated is false — see the corresponding result entry): when
the free-space query raises, `check_disk_space` returns has_space false and
zero free MB, but with the status string `'error'`, which is none of
critical/warning/ok; in particular it is not `'critical'` as the claim and
the docstring of the function state. -/
theorem C4_error_status_on_query_failure (R : ℚ) :
    check_disk_space none R = ⟨false, 0, .error⟩ ∧
    SpaceStatus.error ≠ .critical ∧ SpaceStatus.error ≠ .warning ∧
    SpaceStatus.error ≠ .ok :=
  ⟨rfl, by decide, by decide, by decide⟩

/-- C5 (claim as stated is false — see the corresponding result entry): at a
state with 20 conversions done and four recorded sizes, the next successful
conversion records the fifth sample and enters the prediction branch, which
reads the undefined name `progress_counter` (line 320); the file is recorded
as corrupt with a NameError, the error count rises, and `converted_count`
stays 20 — no mean × remaining estimate and no shortfall signal is ever
computed. -/
theorem C5_prediction_raises_name_error :
    (successStep spaceOkOracle stC5 "/a/f21.cr2" "/a/f21.jpg" 1000 1048576).error_count
        = stC5.error_count + 1 ∧
    (successStep spaceOkOracle stC5 "/a/f21.cr2" "/a/f21.jpg" 1000 1048576).corrupt_files_log
        = [("/a/f21.cr2", ⟨"name progress_counter is not defined", "NameError", 1000⟩)] ∧
    (successStep spaceOkOracle stC5 "/a/f21.cr2" "/a/f21.jpg" 1000 1048576).converted_count
        = 20 ∧
    (successStep spaceOkOracle stC5 "/a/f21.cr2" "/a/f21.jpg" 1000 1048576).converted_file_sizes.length
        = 5 :=
  ⟨by decide, by decide, by decide, by decide⟩

/-- C7 (claim as stated is false — see the corresponding result entry): with
the monitor reporting `critical` from the first call on, the check frequency
variable is indeed tightened to 1 after the first file, yet over six
successful conversions the monitor is called only at `converted_count` 0 and
5 — never on the files in between — because the space check is nested inside
the `converted_count % 5 == 0` periodic-save block. -/
theorem C7_critical_does_not_check_every_file :
    (convert_raw_to_jpeg fs7 [] [] (files7.take 1) decodeOk spaceCritOracle
        initCheckOk false).final.space_check_frequency = 1 ∧
    (convert_raw_to_jpeg fs7 [] [] files7 decodeOk spaceCritOracle
        initCheckOk false).final.converted_count = 6 ∧
    (convert_raw_to_jpeg fs7 [] [] files7 decodeOk spaceCritOracle
        initCheckOk false).final.checkedAt = [0, 5] :=
  ⟨by decide, by decide, by decide⟩

/-- C8 counterexample: a completed run with one successful conversion and no
failures ends with `save_conversion_log` called but `save_corrupt_files_log`
not called — the corrupt partition is not saved unconditionally at run end. -/
theorem C8_counterexample_no_corrupt_save_at_run_end :
    (convert_raw_to_jpeg fs7 [] [] (files7.take 1) decodeOk spaceOkOracle
        initCheckOk false).ranMainLoop = true ∧
    (convert_raw_to_jpeg fs7 [] [] (files7.take 1) decodeOk spaceOkOracle
        initCheckOk false).final.error_count = 0 ∧
    (convert_raw_to_jpeg fs7 [] [] (files7.take 1) decodeOk spaceOkOracle
        initCheckOk false).finalConvSave = true ∧
    (convert_raw_to_jpeg fs7 [] [] (files7.take 1) decodeOk spaceOkOracle
        initCheckOk false).finalCorruptSave = false :=
  ⟨by decide, by decide, by decide, by decide⟩

/-- C8 (amended): the conversion log is saved on a successful conversion
exactly when `converted_count % 5 == 0` (every 5 successful conversions), and
unconditionally at the end of a run that ran the main loop without crashing;
the corrupt partition is saved at run end exactly when some file failed this
run; and the Abort branch of the pause gate saves both partitions before
terminating. -/
theorem C8_save_cadence (fs0 : FS) (initLog : List (String × ConvertedRecord))
    (initCorrupt : List (String × CorruptRecord)) (files : List (String × String))
    (decode : DecodeOracle) (space : Nat → CheckResult)
    (init : CheckResult) (force : Bool) (st : ConvState)
    (ip op : String) (ss jb : Nat)
    (hgo : init.has_space = true ∨ force = true)
    (hnc : (convert_raw_to_jpeg fs0 initLog initCorrupt files decode space
        init force).final.crashed = false) :
    (successStep space st ip op ss jb).convSaves
        = st.convSaves + (if st.converted_count % 5 = 0 then 1 else 0) ∧
    (convert_raw_to_jpeg fs0 initLog initCorrupt files decode space
        init force).finalConvSave = true ∧
    ((convert_raw_to_jpeg fs0 initLog initCorrupt files decode space
        init force).finalCorruptSave = true ↔
      (convert_raw_to_jpeg fs0 initLog initCorrupt files decode space
        init force).final.corrupt_files ≠ []) ∧
    (pauseGateRespond .exitRun).savedConversionLog = true ∧
    (pauseGateRespond .exitRun).savedCorruptLog = true ∧
    (pauseGateRespond .exitRun).terminated = true := by
  have hcond : ¬ (init.has_space = false ∧ force = false) := by
    rcases hgo with h | h <;> simp [h]
  refine ⟨?_, ?_, ?_, rfl, rfl, rfl⟩
  · by_cases h5 : st.converted_count % 5 = 0 <;>
      simp only [successStep] <;> split_ifs <;> simp_all
  · simp only [convert_raw_to_jpeg, if_neg hcond] at hnc ⊢
    simp [hnc]
  · simp only [convert_raw_to_jpeg, if_neg hcond] at hnc ⊢
    simp [hnc, List.isEmpty_iff]

/-- Witness for C8 at a concrete one-file run: the first successful
conversion triggers a periodic save (`0 % 5 == 0`), and the completed run
saves the conversion log. -/
theorem C8_save_cadence_witness :
    (successStep spaceOkOracle (initConvState fs7 [] []) "/a/f1.cr2" "/a/f1.jpg"
        1000 1048576).convSaves = 1 ∧
    (convert_raw_to_jpeg fs7 [] [] (files7.take 1) decodeOk spaceOkOracle
        initCheckOk false).finalConvSave = true := by
  obtain ⟨h1, h2, _, _, _, _⟩ := C8_save_cadence fs7 [] [] (files7.take 1)
    decodeOk spaceOkOracle initCheckOk false (initConvState fs7 [] [])
    "/a/f1.cr2" "/a/f1.jpg" 1000 1048576 (Or.inl rfl) (by decide)
  exact ⟨by rw [h1]; decide, h2⟩

end RawConv
